import Mathlib

/-!
Shallow embedding of src/Source/Program/Main.cpp (StandaloneAsio).

The program is a minimal asio TCP endpoint.  The parts relevant to the
claims are:
  - ApplicationConfig::Create, which folds over the argument token list
    and produces an optional configuration record;
  - TryParse<int>, which wraps std::stoi;
  - Session, which owns one socket and repeatedly arms a single
    asynchronous read, pushing non-empty successful reads onto a queue;
  - Server, which owns the acceptor and a queue of accepted sockets;
  - RunServer, the driver loop bounded by 100 completed operations.

Sockets are modelled by a Bool open flag (plus a Nat identity where the
code moves sockets through the pending queue).  The asio completion
handlers are modelled as explicit state-transition functions on the
owning object: the handler body is translated line by line, and the
re-arm call at its end is the same StartRead / StartAccept function the
constructor uses.  An "armed" Bool field stands for an outstanding
asynchronous operation.  Logging is side-effect-only in the source and
is dropped.
-/

/-- Mode of ApplicationConfig (enum class Mode in the source). -/
inductive Mode where
  | Unknown
  | Server
  | Client
deriving DecidableEq, Repr

/-- The immutable configuration record (class ApplicationConfig):
fields m_Mode, m_Address, m_Port.  PortNumber is unsigned short, kept
as a Nat below 65536 by the cast in Create. -/
structure ApplicationConfig where
  m_Mode : Mode
  m_Address : String
  m_Port : Nat
deriving DecidableEq, Repr

/-- Characters accepted as whitespace by strtol / std::stoi in the C
locale (isspace). -/
def isSpaceChar (c : Char) : Bool :=
  c = ' ' || c = '\t' || c = '\n' || c = '\x0b' || c = '\x0c' || c = '\r'

/-- Value of a list of decimal digit characters, most significant
first, as an unbounded integer. -/
def digitsToInt (cs : List Char) : Int :=
  cs.foldl (fun a c => a * 10 + ((c.toNat - '0'.toNat : Nat) : Int)) 0

/-- Digit-run stage of std::stoi: take the longest leading run of
decimal digits; no digit at all raises invalid_argument (none); a value
outside the int range raises out_of_range (none). -/
def stoiDigits (sign : Int) (cs : List Char) : Option Int :=
  let ds := cs.takeWhile Char.isDigit
  if ds.isEmpty then none
  else
    let v := sign * digitsToInt ds
    if v < -2147483648 || 2147483647 < v then none else some v

/-- Model of std::stoi on a decimal string: skip leading whitespace,
optional single sign, then digits; trailing characters are ignored. -/
def stoiModel (s : String) : Option Int :=
  match s.toList.dropWhile isSpaceChar with
  | '-' :: rest => stoiDigits (-1) rest
  | '+' :: rest => stoiDigits 1 rest
  | rest => stoiDigits 1 rest

/-- TryParse of Main.cpp instantiated at OutputType = int: an empty
string fails, otherwise std::stoi runs with both of its exceptions
mapped to failure.  Success returns the parsed value. -/
def TryParse (s : String) : Option Int :=
  if s.isEmpty then none else stoiModel s

/-- static_cast from int to PortNumber = unsigned short: reduction
modulo 2 to the 16. -/
def toPortNumber (v : Int) : Nat :=
  (v % 65536).toNat

/-- The local accumulator of ApplicationConfig::Create: the six locals
l_AddressFound, l_Address, l_PortFound, l_Port, l_ModeFound, l_Mode. -/
structure CreateState where
  l_AddressFound : Bool
  l_Address : String
  l_PortFound : Bool
  l_Port : Nat
  l_ModeFound : Bool
  l_Mode : Mode
deriving DecidableEq, Repr

/-- Initial accumulator of Create: defaults 127.0.0.1 and 7500, no
mode. -/
def initCreateState : CreateState :=
  { l_AddressFound := false, l_Address := "127.0.0.1",
    l_PortFound := false, l_Port := 7500,
    l_ModeFound := false, l_Mode := Mode.Unknown }

/-- One iteration of the loop body of Create, run only when a next
token exists: cur is *l_itr and next is *l_next.  The four ifs run in
source order; the port branch assigns l_PortFound the parse result and
casts the int to PortNumber on success. -/
def createStep (st : CreateState) (cur next : String) : CreateState :=
  let st :=
    if !st.l_AddressFound && cur = "address" then
      { st with l_Address := next, l_AddressFound := true }
    else st
  let st :=
    if !st.l_PortFound && cur = "port" then
      match TryParse next with
      | some v => { st with l_PortFound := true, l_Port := toPortNumber v }
      | none => st
    else st
  let st :=
    if !st.l_ModeFound && cur = "client" then
      { st with l_ModeFound := true, l_Mode := Mode.Client }
    else st
  let st :=
    if !st.l_ModeFound && cur = "server" then
      { st with l_ModeFound := true, l_Mode := Mode.Server }
    else st
  st

/-- The iterator loop of Create: the body runs for a token only when
l_next is not the end iterator, so the final token is never examined. -/
def createLoop (st : CreateState) : List String → CreateState
  | [] => st
  | [_] => st
  | cur :: next :: rest => createLoop (createStep st cur next) (next :: rest)

/-- ApplicationConfig::Create: empty parameter list yields no value;
otherwise the loop runs and a configuration is produced exactly when a
mode was found. -/
def ApplicationConfig.Create (params : List String) : Option ApplicationConfig :=
  if params.isEmpty then none
  else
    let st := createLoop initCreateState params
    if st.l_ModeFound then
      some { m_Mode := st.l_Mode, m_Address := st.l_Address, m_Port := st.l_Port }
    else none

/-- State of class Session: the socket open flag stands for m_Socket,
m_ReadBuffer is the byte span of the fixed buffer viewed as a string
(its length is the buffer size), and m_Messages is the queue with its
front at the list head. m_ReadWait true means an asynchronous read is
outstanding. -/
structure Session where
  m_SocketOpen : Bool
  m_ReadBuffer : String
  m_MasterExit : Bool
  m_ReadWait : Bool
  m_Messages : List String
deriving DecidableEq, Repr

/-- Session::StartRead up to issuing the asynchronous operation: arms a
read (m_ReadWait := true) only when the socket is open and no read is
pending, otherwise falls through with no state change. -/
def Session.StartRead (s : Session) : Session :=
  if s.m_SocketOpen && !s.m_ReadWait then { s with m_ReadWait := true } else s

/-- The completion lambda inside Session::StartRead.  p_BytesRead is
received but, as in the source, never consulted: the push guard is the
buffer size.  After the error handling, the handler re-arms through
StartRead unless m_MasterExit is set. -/
def Session.handleReadCompletion (s : Session) (p_Error : Bool) (p_BytesRead : Nat) : Session :=
  let s1 := { s with m_ReadWait := false }
  let s2 :=
    if p_Error = false then
      if s1.m_ReadBuffer.length > 0 then
        { s1 with m_Messages := s1.m_Messages ++ [s1.m_ReadBuffer] }
      else s1
    else s1
  if s2.m_MasterExit = false then s2.StartRead else s2

/-- Session::Close: closes the socket only when it is open. -/
def Session.Close (s : Session) : Session :=
  if s.m_SocketOpen then { s with m_SocketOpen := false } else s

/-- The Session destructor: sets m_MasterExit, then Close. -/
def Session.destruct (s : Session) : Session :=
  Session.Close { s with m_MasterExit := true }

/-- The Session constructor: moves in an (open) accepted socket, all
other members default-initialised — in particular m_ReadBuffer is a
default asio mutable_buffer, i.e. size zero — and immediately calls
StartRead. -/
def Session.construct : Session :=
  Session.StartRead
    { m_SocketOpen := true, m_ReadBuffer := "", m_MasterExit := false,
      m_ReadWait := false, m_Messages := [] }

/-- State of class Server: m_ConnectedSockets is the pending queue of
accepted sockets (identified by Nat), front at the head.
m_AcceptArmed true means an asynchronous accept is outstanding. -/
structure Server where
  m_ConnectionsCount : Nat
  m_ConnectedSockets : List Nat
  m_MasterExit : Bool
  m_AcceptArmed : Bool
deriving DecidableEq, Repr

/-- Server::StartAccept up to issuing the asynchronous operation:
unconditionally arms an accept. -/
def Server.StartAccept (s : Server) : Server :=
  { s with m_AcceptArmed := true }

/-- The completion lambda inside Server::StartAccept: the connection
counter increments on every completion; only a success pushes the
incoming socket; the handler re-arms through StartAccept unless
m_MasterExit is set. -/
def Server.handleAccept (s : Server) (p_Error : Bool) (p_IncomingSocket : Nat) : Server :=
  let s1 := { s with m_AcceptArmed := false,
                     m_ConnectionsCount := s.m_ConnectionsCount + 1 }
  let s2 :=
    if p_Error = false then
      { s1 with m_ConnectedSockets := s1.m_ConnectedSockets ++ [p_IncomingSocket] }
    else s1
  if s2.m_MasterExit = false then s2.StartAccept else s2

/-- Server::ConnectionWaiting: whether the pending queue is non-empty,
read under the lock. -/
def Server.ConnectionWaiting (s : Server) : Bool :=
  !s.m_ConnectedSockets.isEmpty

/-- Server::GetNextConnection: emplaces queue front and pops, under the
lock.  The source performs front() with no emptiness guard, which on an
empty queue is undefined behaviour; that unguarded branch is modelled
as none. -/
def Server.GetNextConnection (s : Server) : Option (Nat × Server) :=
  match s.m_ConnectedSockets with
  | [] => none
  | sock :: rest => some (sock, { s with m_ConnectedSockets := rest })

/-- C5: StartRead arms a read only when the socket is open and no read
is pending; in every other state it returns with no state change, and
repeating the call while a read is pending is a no-op, so at most one
read is ever in flight. -/
theorem spec_C5 (s : Session) :
    (s.m_ReadWait = true → s.StartRead = s) ∧
    (s.m_SocketOpen = false → s.StartRead = s) ∧
    (s.m_SocketOpen = true → s.m_ReadWait = false →
      s.StartRead = { s with m_ReadWait := true }) ∧
    s.StartRead.StartRead = s.StartRead := by
  refine ⟨?_, ?_, ?_, ?_⟩
  · intro h; simp [Session.StartRead, h]
  · intro h; simp [Session.StartRead, h]
  · intro h1 h2; simp [Session.StartRead, h1, h2]
  · by_cases ho : s.m_SocketOpen <;> by_cases hw : s.m_ReadWait <;>
      simp [Session.StartRead, ho, hw]

/-- C5 witness: a concrete open, idle session arms exactly once. -/
theorem spec_C5_witness :
    (Session.mk true "" false false []).StartRead
      = { Session.mk true "" false false [] with m_ReadWait := true } :=
  (spec_C5 (Session.mk true "" false false [])).2.2.1 rfl rfl

/-- C7: after every accept completion, error or not, the acceptor is
re-armed exactly when the shutdown flag was not set; a failed accept
never stops the accept loop while the server is not shutting down. -/
theorem spec_C7 (s : Server) (e : Bool) (k : Nat) :
    (s.handleAccept e k).m_AcceptArmed = !s.m_MasterExit ∧
    (s.handleAccept e k).m_MasterExit = s.m_MasterExit := by
  by_cases he : e <;> by_cases hm : s.m_MasterExit <;>
    simp [Server.handleAccept, Server.StartAccept, he, hm]

/-- C9: Session Close is idempotent — a second Close is an identity on
the already-closed state, the socket ends closed, and destruction after
an external Close only sets the shutdown flag without re-performing the
socket close. -/
theorem spec_C9 (s : Session) :
    Session.Close (Session.Close s) = Session.Close s ∧
    (Session.Close s).m_SocketOpen = false ∧
    Session.destruct (Session.Close s)
      = { Session.Close s with m_MasterExit := true } := by
  by_cases ho : s.m_SocketOpen <;>
    simp [Session.Close, Session.destruct, ho]

/-- C6: when ConnectionWaiting has returned true, GetNextConnection is
in its front-removal branch: it returns ownership of the front socket
and the server with only the queue popped; the unguarded empty-queue
access is unreachable under this precondition. -/
theorem spec_C6 (s : Server) (h : s.ConnectionWaiting = true) :
    ∃ sock, s.GetNextConnection
        = some (sock, { s with m_ConnectedSockets := s.m_ConnectedSockets.tail }) ∧
      s.m_ConnectedSockets = sock :: s.m_ConnectedSockets.tail := by
  unfold Server.ConnectionWaiting at h
  match hq : s.m_ConnectedSockets with
  | [] => rw [hq] at h; simp at h
  | sock :: rest =>
    refine ⟨sock, ?_, rfl⟩
    unfold Server.GetNextConnection
    rw [hq]
    simp

/-- C6 witness: a server with one pending socket yields that socket. -/
theorem spec_C6_witness :
    ∃ sock, (Server.mk 1 [42] false true).GetNextConnection
        = some (sock, { Server.mk 1 [42] false true with
                          m_ConnectedSockets := ([42] : List Nat).tail }) ∧
      ([42] : List Nat) = sock :: ([42] : List Nat).tail :=
  spec_C6 (Server.mk 1 [42] false true) rfl

/-- StartRead never touches the message queue. -/
theorem StartRead_messages (s : Session) : s.StartRead.m_Messages = s.m_Messages := by
  unfold Session.StartRead
  split <;> rfl

/-- The message-queue effect of one read completion: the queue gains
exactly the buffer contents when there is no error and the buffer size
is positive, and is untouched otherwise. -/
theorem handleRead_messages (s : Session) (e : Bool) (n : Nat) :
    (s.handleReadCompletion e n).m_Messages =
      if e = false ∧ s.m_ReadBuffer.length > 0 then s.m_Messages ++ [s.m_ReadBuffer]
      else s.m_Messages := by
  by_cases he : e <;> by_cases hb : s.m_ReadBuffer.length > 0 <;>
    simp [Session.handleReadCompletion, he, hb, StartRead_messages,
          apply_ite Session.m_Messages]

/-- C2: a read completion modifies the message queue exactly when it
carries no error and the transferred byte count is nonzero, in which
case the buffer contents are appended as one owned string; a zero-byte
success and a failed completion leave the queue untouched.  The
hypothesis is the asio contract for async_read: a successful completion
has transferred exactly the buffer size. -/
theorem spec_C2 (s : Session) (e : Bool) (n : Nat)
    (hb : e = false → n = s.m_ReadBuffer.length) :
    (s.handleReadCompletion e n).m_Messages =
      if e = false ∧ n ≠ 0 then s.m_Messages ++ [s.m_ReadBuffer]
      else s.m_Messages := by
  rw [handleRead_messages]
  by_cases he : e
  · simp [he]
  · have hn : n = s.m_ReadBuffer.length := hb (by simpa using he)
    simp [he, hn, Nat.pos_iff_ne_zero]

/-- C2 witness: a successful two-byte completion on a session holding
"ab" in its buffer pushes exactly "ab". -/
theorem spec_C2_witness :
    (Session.handleReadCompletion (Session.mk true "ab" false true []) false 2).m_Messages
      = ["ab"] := by
  have h := spec_C2 (Session.mk true "ab" false true []) false 2 (fun _ => by decide)
  simpa using h

/-- A run of read completions against one Session: before each
completion the transport has filled the fixed buffer with the payload
of that read (the reported byte count equals its size), and the
completion handler then runs with the given error flag. -/
def sessionRun (s : Session) (events : List (Bool × String)) : Session :=
  events.foldl
    (fun acc ev =>
      Session.handleReadCompletion { acc with m_ReadBuffer := ev.2 } ev.1 ev.2.length)
    s

/-- The queue after a run is the starting queue followed by the
payloads of the non-empty successful reads, in arrival order. -/
theorem sessionRun_messages (events : List (Bool × String)) :
    ∀ s : Session,
      (sessionRun s events).m_Messages
        = s.m_Messages
            ++ (events.filter (fun ev => !ev.1 && ev.2.length != 0)).map Prod.snd := by
  induction events with
  | nil => intro s; simp [sessionRun]
  | cons e es ih =>
    intro s
    have hstep := ih (Session.handleReadCompletion { s with m_ReadBuffer := e.2 } e.1 e.2.length)
    unfold sessionRun at hstep ⊢
    rw [List.foldl_cons, hstep, handleRead_messages]
    by_cases he : e.1 <;> by_cases hb : e.2.length = 0 <;>
      simp [he, hb, List.filter_cons, Nat.pos_iff_ne_zero]

/-- C3: starting from an empty queue, after any sequence of read
completions the messages are exactly the payloads of the non-empty
successful reads in arrival order (FIFO), and the queue length is the
count of those reads; holding for every sequence, this holds after
every prefix. -/
theorem spec_C3 (events : List (Bool × String)) (s : Session)
    (h0 : s.m_Messages = []) :
    (sessionRun s events).m_Messages
        = (events.filter (fun ev => !ev.1 && ev.2.length != 0)).map Prod.snd ∧
    (sessionRun s events).m_Messages.length
        = (events.filter (fun ev => !ev.1 && ev.2.length != 0)).length := by
  have h := sessionRun_messages events s
  rw [h0] at h
  simp [h]

/-- C3 witness: of four completions — success "a", failure "b", empty
success, success "c" — the queue ends as ["a", "c"] with length two. -/
theorem spec_C3_witness :
    (sessionRun (Session.mk true "" false true [])
        [(false, "a"), (true, "b"), (false, ""), (false, "c")]).m_Messages
      = ["a", "c"] := by
  have h := spec_C3 [(false, "a"), (true, "b"), (false, ""), (false, "c")]
    (Session.mk true "" false true []) rfl
  rw [h.1]
  decide

/-- The pending-queue effect of one accept completion: a success
appends the incoming socket, a failure leaves the queue untouched. -/
theorem handleAccept_sockets (s : Server) (e : Bool) (k : Nat) :
    (s.handleAccept e k).m_ConnectedSockets =
      if e = false then s.m_ConnectedSockets ++ [k] else s.m_ConnectedSockets := by
  by_cases he : e <;> by_cases hm : s.m_MasterExit <;>
    simp [Server.handleAccept, Server.StartAccept, he, hm]

/-- An interleaving step at the Acceptor: either an accept completion
fires, or the Driver claims a socket through GetNextConnection. -/
inductive ServerEvent where
  | accepted (p_Error : Bool) (sock : Nat)
  | claimed
deriving DecidableEq, Repr

/-- One step of the interleaving. -/
def serverStep (s : Server) (e : ServerEvent) : Server :=
  match e with
  | .accepted err sock => s.handleAccept err sock
  | .claimed =>
    match s.GetNextConnection with
    | some (_, s') => s'
    | none => s

/-- Number of successful accept completions in an event list. -/
def countAccepted (es : List ServerEvent) : Nat :=
  (es.filter (fun e => match e with | .accepted false _ => true | _ => false)).length

/-- Number of Driver claims in an event list. -/
def countClaimed (es : List ServerEvent) : Nat :=
  (es.filter (fun e => match e with | .claimed => true | _ => false)).length

/-- Queue length after an interleaving, from an arbitrary start: when
no prefix claims more sockets than were available, the final length is
start plus successful accepts minus claims. -/
theorem serverRun_length (es : List ServerEvent) :
    ∀ s : Server,
      (∀ n : Nat,
        countClaimed (es.take n)
          ≤ s.m_ConnectedSockets.length + countAccepted (es.take n)) →
      (es.foldl serverStep s).m_ConnectedSockets.length
        = s.m_ConnectedSockets.length + countAccepted es - countClaimed es := by
  induction es with
  | nil =>
    intro s h
    simp [countAccepted, countClaimed]
  | cons e es ih =>
    intro s h
    cases e with
    | accepted err sock =>
      rw [List.foldl_cons]
      have hlen : (serverStep s (.accepted err sock)).m_ConnectedSockets.length
          = s.m_ConnectedSockets.length + (if err = false then 1 else 0) := by
        show (s.handleAccept err sock).m_ConnectedSockets.length = _
        rw [handleAccept_sockets]
        by_cases herr : err = false <;> simp [herr]
      have hsub : ∀ n : Nat,
          countClaimed (es.take n)
            ≤ (serverStep s (.accepted err sock)).m_ConnectedSockets.length
              + countAccepted (es.take n) := by
        intro n
        rw [hlen]
        have hn := h (n + 1)
        rw [List.take_succ_cons] at hn
        by_cases herr : err = false <;>
          simp [countAccepted, countClaimed, List.filter_cons, herr] at hn ⊢ <;>
          omega
      rw [ih _ hsub, hlen]
      by_cases herr : err = false <;>
        simp [countAccepted, countClaimed, List.filter_cons, herr] <;> omega
    | claimed =>
      have h1 := h 1
      rw [List.take_succ_cons, List.take_zero] at h1
      simp [countAccepted, countClaimed, List.filter_cons] at h1
      match hq : s.m_ConnectedSockets with
      | [] => rw [hq] at h1; simp at h1
      | a :: rest =>
        have hstep : serverStep s .claimed = { s with m_ConnectedSockets := rest } := by
          simp [serverStep, Server.GetNextConnection, hq]
        have hsub : ∀ n : Nat,
            countClaimed (es.take n)
              ≤ ({ s with m_ConnectedSockets := rest } :
                    Server).m_ConnectedSockets.length + countAccepted (es.take n) := by
          intro n
          have hn := h (n + 1)
          rw [List.take_succ_cons] at hn
          simp [countAccepted, countClaimed, List.filter_cons, hq] at hn ⊢
          omega
        rw [List.foldl_cons, hstep, ih _ hsub]
        have hfin := h (es.length + 1)
        rw [List.take_succ_cons, List.take_length] at hfin
        simp [countAccepted, countClaimed, List.filter_cons, hq] at hfin ⊢
        omega

/-- C4: for every interleaving of accept completions and claims in
which no prefix claims more than the successful accepts so far, the
pending-socket queue length after the run equals successful accepts
minus claims; applied to every prefix this gives the running
invariant. -/
theorem spec_C4 (es : List ServerEvent) (s : Server)
    (hq : s.m_ConnectedSockets = [])
    (h : ∀ n : Nat, countClaimed (es.take n) ≤ countAccepted (es.take n)) :
    (es.foldl serverStep s).m_ConnectedSockets.length
      = countAccepted es - countClaimed es := by
  have hrun := serverRun_length es s (by intro n; rw [hq]; simpa using h n)
  rw [hq] at hrun
  simpa using hrun

/-- C4 witness: one successful accept then one claim — the queue holds
one socket before the claim (ConnectionWaiting true) and none after. -/
theorem spec_C4_witness :
    ([ServerEvent.accepted false 3].foldl serverStep
        (Server.mk 0 [] false true)).m_ConnectedSockets.length
      = countAccepted [ServerEvent.accepted false 3]
        - countClaimed [ServerEvent.accepted false 3] ∧
    ([ServerEvent.accepted false 3, ServerEvent.claimed].foldl serverStep
        (Server.mk 0 [] false true)).m_ConnectedSockets.length
      = countAccepted [ServerEvent.accepted false 3, ServerEvent.claimed]
        - countClaimed [ServerEvent.accepted false 3, ServerEvent.claimed] ∧
    countAccepted [ServerEvent.accepted false 3] = 1 ∧
    countAccepted [ServerEvent.accepted false 3, ServerEvent.claimed]
      - countClaimed [ServerEvent.accepted false 3, ServerEvent.claimed] = 0 := by
  refine ⟨spec_C4 _ _ rfl ?_, spec_C4 _ _ rfl ?_, by decide, by decide⟩
  · intro n
    match n with
    | 0 => decide
    | (m + 1) =>
      rw [List.take_succ_cons]
      simp [countAccepted, countClaimed, List.filter_cons]
  · intro n
    match n with
    | 0 => decide
    | 1 => decide
    | (m + 2) =>
      rw [List.take_succ_cons, List.take_succ_cons]
      simp [countAccepted, countClaimed, List.filter_cons]

/-- State of RunServer: the locals l_Ops, l_Server and l_Sessions. -/
structure Driver where
  l_Ops : Nat
  l_Server : Server
  l_Sessions : List Session
deriving DecidableEq, Repr

/-- One completion delivered by io_context run_one: either the pending
accept finishes (with or without error), or the pending read of the
session at a given index finishes, the transport having filled that
session buffer with the payload. -/
inductive IOCompletion where
  | acceptDone (p_Error : Bool) (sock : Nat)
  | readDone (idx : Nat) (p_Error : Bool) (payload : String)
deriving DecidableEq, Repr

/-- One iteration of the RunServer do-while body: run_one executes
exactly one ready completion and returns 1, l_Ops increments, then the
Driver polls ConnectionWaiting and, when a socket is pending, claims it
and constructs a Session for it. -/
def driverStep (d : Driver) (ev : IOCompletion) : Driver :=
  let d1 :=
    match ev with
    | .acceptDone e k => { d with l_Server := d.l_Server.handleAccept e k }
    | .readDone i e payload =>
      match d.l_Sessions.get? i with
      | some s =>
        let sNew := Session.handleReadCompletion { s with m_ReadBuffer := payload } e payload.length
        { d with l_Sessions := d.l_Sessions.set i sNew }
      | none => d
  let d2 := { d1 with l_Ops := d1.l_Ops + 1 }
  if d2.l_Server.ConnectionWaiting then
    match d2.l_Server.GetNextConnection with
    | some (_, srv) =>
      { d2 with l_Server := srv, l_Sessions := d2.l_Sessions ++ [Session.construct] }
    | none => d2
  else d2

/-- The do-while loop of RunServer: the body always runs once, then
repeats while l_Ops is below 100; the event list supplies the ready
completions in order. -/
def runLoop (d : Driver) : List IOCompletion → Driver
  | [] => d
  | ev :: rest =>
    let d' := driverStep d ev
    if d'.l_Ops < 100 then runLoop d' rest else d'

/-- The driver state on entry to the loop: l_Ops starts at zero, the
Server constructor has armed the first accept, nothing is pending, no
sessions exist. -/
def initialDriver : Driver :=
  { l_Ops := 0,
    l_Server := { m_ConnectionsCount := 0, m_ConnectedSockets := [],
                  m_MasterExit := false, m_AcceptArmed := true },
    l_Sessions := [] }

/-- RunServer for a non-null configuration, followed by the implicit
return 0 of main: runs the loop, then deletes every Session (its
destructor sets the shutdown flag and closes the socket) and clears the
vector.  The pair is the process exit code and the sessions as the
destructor left them. -/
def RunServer (events : List IOCompletion) : Nat × List Session :=
  let dF := runLoop initialDriver events
  (0, dF.l_Sessions.map Session.destruct)

/-- Every driver iteration increments the operation counter by one. -/
theorem driverStep_ops (d : Driver) (ev : IOCompletion) :
    (driverStep d ev).l_Ops = d.l_Ops + 1 := by
  cases ev <;> simp only [driverStep] <;> (repeat' split) <;> simp_all

/-- A destroyed session has its shutdown flag set and its socket
closed. -/
theorem destruct_flags (s : Session) :
    (Session.destruct s).m_MasterExit = true ∧
    (Session.destruct s).m_SocketOpen = false := by
  by_cases h : s.m_SocketOpen <;> simp [Session.destruct, Session.Close, h]

/-- Given at least as many ready completions as the remaining budget,
the loop leaves with the counter exactly at 100. -/
theorem runLoop_ops (events : List IOCompletion) :
    ∀ d : Driver, d.l_Ops < 100 → 100 ≤ d.l_Ops + events.length →
      (runLoop d events).l_Ops = 100 := by
  induction events with
  | nil =>
    intro d h1 h2
    simp at h2
    omega
  | cons ev rest ih =>
    intro d h1 h2
    have hops := driverStep_ops d ev
    by_cases hlt : (driverStep d ev).l_Ops < 100
    · have : runLoop d (ev :: rest) = runLoop (driverStep d ev) rest := by
        simp [runLoop, hlt]
      rw [this]
      refine ih _ hlt ?_
      simp at h2 ⊢
      omega
    · have : runLoop d (ev :: rest) = driverStep d ev := by
        simp [runLoop, hlt]
      rw [this]
      omega

/-- C8: in the server role the driver loop runs until the operation
counter reaches the fixed budget of 100 completed operations — for any
mix of successful and failed accept and read completions — then every
Session is torn down (shutdown flag set, socket closed) and the process
exits with code 0. -/
theorem spec_C8 (events : List IOCompletion) (h : 100 ≤ events.length) :
    (RunServer events).1 = 0 ∧
    (runLoop initialDriver events).l_Ops = 100 ∧
    ∀ s ∈ (RunServer events).2, s.m_MasterExit = true ∧ s.m_SocketOpen = false := by
  refine ⟨rfl, ?_, ?_⟩
  · exact runLoop_ops events initialDriver (by simp [initialDriver]) (by simpa [initialDriver] using h)
  · intro s hs
    simp only [RunServer, List.mem_map] at hs
    obtain ⟨t, _, rfl⟩ := hs
    exact destruct_flags t

/-- C8 witness: one hundred failed read completions still end the run
at exactly 100 operations with exit code 0. -/
theorem spec_C8_witness :
    (RunServer (List.replicate 100 (IOCompletion.readDone 0 true ""))).1 = 0 ∧
    (runLoop initialDriver (List.replicate 100 (IOCompletion.readDone 0 true ""))).l_Ops = 100 ∧
    ∀ s ∈ (RunServer (List.replicate 100 (IOCompletion.readDone 0 true ""))).2,
      s.m_MasterExit = true ∧ s.m_SocketOpen = false :=
  spec_C8 (List.replicate 100 (IOCompletion.readDone 0 true "")) (by simp)

/-- A loop iteration with a mode already found leaves the mode fields
alone: the two role branches are guarded by the mode-found flag. -/
theorem createStep_mode_found (st : CreateState) (c n : String)
    (h : st.l_ModeFound = true) :
    (createStep st c n).l_ModeFound = true ∧ (createStep st c n).l_Mode = st.l_Mode := by
  simp only [createStep]
  (repeat' split) <;> simp_all

/-- The whole loop preserves an already-found mode. -/
theorem createLoop_mode_found : ∀ (l : List String) (st : CreateState),
    st.l_ModeFound = true →
    (createLoop st l).l_ModeFound = true ∧ (createLoop st l).l_Mode = st.l_Mode
  | [], st, h => ⟨h, rfl⟩
  | [_], st, h => ⟨h, rfl⟩
  | c :: n :: rest, st, h => by
    rw [show createLoop st (c :: n :: rest) = createLoop (createStep st c n) (n :: rest) from rfl]
    have hstep := createStep_mode_found st c n h
    have ih := createLoop_mode_found (n :: rest) (createStep st c n) hstep.1
    exact ⟨ih.1, ih.2.trans hstep.2⟩

/-- A loop iteration with a port already found leaves the port fields
alone: the port branch is guarded by the port-found flag. -/
theorem createStep_port_found (st : CreateState) (c n : String)
    (h : st.l_PortFound = true) :
    (createStep st c n).l_PortFound = true ∧ (createStep st c n).l_Port = st.l_Port := by
  simp only [createStep]
  (repeat' split) <;> simp_all

/-- The whole loop preserves an already-found port. -/
theorem createLoop_port_found : ∀ (l : List String) (st : CreateState),
    st.l_PortFound = true →
    (createLoop st l).l_PortFound = true ∧ (createLoop st l).l_Port = st.l_Port
  | [], st, h => ⟨h, rfl⟩
  | [_], st, h => ⟨h, rfl⟩
  | c :: n :: rest, st, h => by
    rw [show createLoop st (c :: n :: rest) = createLoop (createStep st c n) (n :: rest) from rfl]
    have hstep := createStep_port_found st c n h
    have ih := createLoop_port_found (n :: rest) (createStep st c n) hstep.1
    exact ⟨ih.1, ih.2.trans hstep.2⟩

/-- A loop iteration on a non-role token cannot set the mode flag. -/
theorem createStep_no_role (st : CreateState) (c n : String)
    (h : st.l_ModeFound = false) (hs : c ≠ "server") (hc : c ≠ "client") :
    (createStep st c n).l_ModeFound = false := by
  simp only [createStep]
  (repeat' split) <;> simp_all

/-- A loop iteration on a role token with no mode found yet sets the
mode to the role of that token. -/
theorem createStep_role (st : CreateState) (t n : String)
    (h : st.l_ModeFound = false) (ht : t = "server" ∨ t = "client") :
    (createStep st t n).l_ModeFound = true ∧
    (createStep st t n).l_Mode = (if t = "client" then Mode.Client else Mode.Server) := by
  rcases ht with rfl | rfl <;>
    · simp only [createStep]
      (repeat' split) <;> simp_all

/-- The mode produced by the loop is the role of the first role token
in a non-final position, provided no earlier token is a role token. -/
theorem createLoop_first_role : ∀ (pre : List String) (t : String) (post : List String)
    (st : CreateState),
    (t = "server" ∨ t = "client") →
    (∀ u ∈ pre, u ≠ "server" ∧ u ≠ "client") →
    post ≠ [] →
    st.l_ModeFound = false →
    (createLoop st (pre ++ t :: post)).l_ModeFound = true ∧
    (createLoop st (pre ++ t :: post)).l_Mode
      = (if t = "client" then Mode.Client else Mode.Server)
  | [], t, post, st, ht, hpre, hpost, hmf => by
    cases post with
    | nil => exact absurd rfl hpost
    | cons p ps =>
      rw [List.nil_append,
          show createLoop st (t :: p :: ps) = createLoop (createStep st t p) (p :: ps) from rfl]
      have hstep := createStep_role st t p hmf ht
      have hrest := createLoop_mode_found (p :: ps) (createStep st t p) hstep.1
      exact ⟨hrest.1, hrest.2.trans hstep.2⟩
  | u :: pre, t, post, st, ht, hpre, hpost, hmf => by
    have hu := hpre u (by simp)
    cases hq : pre ++ t :: post with
    | nil => exact absurd hq (by simp)
    | cons q qs =>
      have hcons : (u :: pre) ++ t :: post = u :: q :: qs := by
        rw [List.cons_append, hq]
      rw [hcons,
          show createLoop st (u :: q :: qs) = createLoop (createStep st u q) (q :: qs) from rfl,
          ← hq]
      have hmf2 := createStep_no_role st u q hmf hu.1 hu.2
      exact createLoop_first_role pre t post (createStep st u q) ht
        (fun w hw => hpre w (by simp [hw])) hpost hmf2

/-- A loop iteration either leaves the address alone or copies in the
very next token, and only for the token "address". -/
theorem createStep_address (st : CreateState) (c n : String) :
    (createStep st c n).l_Address = st.l_Address ∨
    (c = "address" ∧ (createStep st c n).l_Address = n) := by
  simp only [createStep]
  (repeat' split) <;> simp_all

/-- The address after the loop is either the incoming address or the
successor of some "address" token of the list. -/
theorem createLoop_address : ∀ (l : List String) (st : CreateState),
    (createLoop st l).l_Address = st.l_Address ∨
    ("address", (createLoop st l).l_Address) ∈ l.zip l.tail
  | [], _ => Or.inl rfl
  | [_], _ => Or.inl rfl
  | c :: n :: rest, st => by
    rw [show createLoop st (c :: n :: rest) = createLoop (createStep st c n) (n :: rest) from rfl]
    rcases createLoop_address (n :: rest) (createStep st c n) with ih | ih
    · rcases createStep_address st c n with h | h
      · exact Or.inl (ih.trans h)
      · refine Or.inr ?_
        rw [show (c :: n :: rest).tail = n :: rest from rfl, List.zip_cons_cons]
        rw [ih, h.2, ← h.1]
        exact List.mem_cons_self _ _
    · refine Or.inr ?_
      rw [show (c :: n :: rest).tail = n :: rest from rfl, List.zip_cons_cons]
      exact List.mem_cons_of_mem _ ih

/-- A loop iteration either leaves the port fields alone or, for the
token "port", parses the very next token and stores its cast. -/
theorem createStep_port (st : CreateState) (c n : String) :
    ((createStep st c n).l_PortFound = st.l_PortFound ∧
      (createStep st c n).l_Port = st.l_Port) ∨
    (c = "port" ∧ ∃ v, TryParse n = some v ∧
      (createStep st c n).l_Port = toPortNumber v) := by
  by_cases hc : (!st.l_PortFound && c = "port") = true
  · have hcp : c = "port" := by
      simp only [Bool.and_eq_true] at hc
      simpa using hc.2
    cases hparse : TryParse n with
    | none =>
      left
      simp only [createStep]
      (repeat' split) <;> simp_all
    | some v =>
      right
      refine ⟨hcp, v, rfl, ?_⟩
      simp only [createStep]
      (repeat' split) <;> simp_all
  · left
    simp only [createStep]
    (repeat' split) <;> simp_all

/-- The port after the loop is either the incoming port (with the
found flag unchanged) or the cast of a value parsed from the successor
of some "port" token of the list. -/
theorem createLoop_port : ∀ (l : List String) (st : CreateState),
    ((createLoop st l).l_PortFound = st.l_PortFound ∧
      (createLoop st l).l_Port = st.l_Port) ∨
    (∃ nx v, ("port", nx) ∈ l.zip l.tail ∧ TryParse nx = some v ∧
      (createLoop st l).l_Port = toPortNumber v)
  | [], _ => Or.inl ⟨rfl, rfl⟩
  | [_], _ => Or.inl ⟨rfl, rfl⟩
  | c :: n :: rest, st => by
    rw [show createLoop st (c :: n :: rest) = createLoop (createStep st c n) (n :: rest) from rfl]
    rcases createLoop_port (n :: rest) (createStep st c n) with ⟨ih1, ih2⟩ | ⟨nx, v, hmem, hv, hport⟩
    · rcases createStep_port st c n with ⟨h1, h2⟩ | ⟨hc, v, hv, hport⟩
      · exact Or.inl ⟨ih1.trans h1, ih2.trans h2⟩
      · refine Or.inr ⟨n, v, ?_, hv, ih2.trans hport⟩
        rw [show (c :: n :: rest).tail = n :: rest from rfl, List.zip_cons_cons, ← hc]
        exact List.mem_cons_self _ _
    · refine Or.inr ⟨nx, v, ?_, hv, hport⟩
      rw [show (c :: n :: rest).tail = n :: rest from rfl, List.zip_cons_cons]
      exact List.mem_cons_of_mem _ hmem

/-- C1 counterexample: the claim says the argument token list
["client"] yields the configuration with Client role and the default
address and port, but Create on ["client"] yields no configuration at
all — the loop never examines the final token, so no role is found. -/
theorem spec_C1_counterexample : ApplicationConfig.Create ["client"] = none := by
  decide

/-- C1 (amended): for every argument token list in which a role token
occurs in a non-final position (and no earlier token is a role token),
Create returns a configuration whose role matches that token, and
whose address and port are the defaults 127.0.0.1 and 7500 unless
copied (respectively parsed) from the successor of an "address"
(respectively "port") token of the list; in particular the list
["server", "address", "127.0.0.1", "port", "8000"] yields
{Server, 127.0.0.1, 8000}.  A role token in the final position is
never examined, so ["client"] yields no configuration. -/
theorem spec_C1 :
    (∀ (pre post : List String) (t : String),
      (t = "server" ∨ t = "client") →
      (∀ u ∈ pre, u ≠ "server" ∧ u ≠ "client") →
      post ≠ [] →
      ∃ cfg, ApplicationConfig.Create (pre ++ t :: post) = some cfg ∧
        cfg.m_Mode = (if t = "client" then Mode.Client else Mode.Server) ∧
        (cfg.m_Address = "127.0.0.1" ∨
          ("address", cfg.m_Address)
            ∈ (pre ++ t :: post).zip (pre ++ t :: post).tail) ∧
        (cfg.m_Port = 7500 ∨
          ∃ nx v, ("port", nx) ∈ (pre ++ t :: post).zip (pre ++ t :: post).tail ∧
            TryParse nx = some v ∧ cfg.m_Port = toPortNumber v)) ∧
    ApplicationConfig.Create ["server", "address", "127.0.0.1", "port", "8000"]
      = some { m_Mode := Mode.Server, m_Address := "127.0.0.1", m_Port := 8000 } := by
  constructor
  · intro pre post t ht hpre hpost
    have hmode := createLoop_first_role pre t post initCreateState ht hpre hpost rfl
    have hne : (pre ++ t :: post).isEmpty = false := by
      cases pre <;> simp
    have hCreate : ApplicationConfig.Create (pre ++ t :: post)
        = some { m_Mode := (createLoop initCreateState (pre ++ t :: post)).l_Mode,
                 m_Address := (createLoop initCreateState (pre ++ t :: post)).l_Address,
                 m_Port := (createLoop initCreateState (pre ++ t :: post)).l_Port } := by
      simp [ApplicationConfig.Create, hne, hmode.1]
    refine ⟨_, hCreate, hmode.2, ?_, ?_⟩
    · rcases createLoop_address (pre ++ t :: post) initCreateState with h | h
      · exact Or.inl h
      · exact Or.inr h
    · rcases createLoop_port (pre ++ t :: post) initCreateState with ⟨_, h⟩ | ⟨nx, v, hmem, hv, hport⟩
      · exact Or.inl h
      · exact Or.inr ⟨nx, v, hmem, hv, hport⟩
  · decide

/-- C1 witness: the amended general statement at the concrete list
["client", "x"] — the role token now has a successor, so the
configuration {Client, 127.0.0.1, 7500} is produced. -/
theorem spec_C1_witness :
    ∃ cfg, ApplicationConfig.Create ["client", "x"] = some cfg ∧
      cfg.m_Mode = (if "client" = "client" then Mode.Client else Mode.Server) ∧
      (cfg.m_Address = "127.0.0.1" ∨
        ("address", cfg.m_Address)
          ∈ (["client", "x"] : List String).zip (["client", "x"] : List String).tail) ∧
      (cfg.m_Port = 7500 ∨
        ∃ nx v, ("port", nx)
            ∈ (["client", "x"] : List String).zip (["client", "x"] : List String).tail ∧
          TryParse nx = some v ∧ cfg.m_Port = toPortNumber v) :=
  spec_C1.1 [] ["x"] "client" (Or.inr rfl) (by simp) (by simp)


/-- C10: an argument list with a role token followed by the tokens
"port" and a string that parses as an int outside the 16-bit unsigned
range still produces a configuration, whose port is the parsed value
reduced modulo 2 to the 16 by the unsigned short cast, rather than the
port being rejected. -/
theorem spec_C10 (r s : String) (rest : List String) (v : Int)
    (hr : r = "server" ∨ r = "client")
    (hp : TryParse s = some v)
    (hout : v < 0 ∨ 65536 ≤ v) :
    ∃ cfg, ApplicationConfig.Create (r :: "port" :: s :: rest) = some cfg ∧
      cfg.m_Port = toPortNumber v ∧
      cfg.m_Mode = (if r = "client" then Mode.Client else Mode.Server) := by
  rcases hr with rfl | rfl
  · have hst1 : createStep initCreateState "server" "port"
        = (⟨false, "127.0.0.1", false, 7500, true, Mode.Server⟩ : CreateState) := by
      decide
    have hst2 : createStep (⟨false, "127.0.0.1", false, 7500, true, Mode.Server⟩ : CreateState) "port" s
        = (⟨false, "127.0.0.1", true, toPortNumber v, true, Mode.Server⟩ : CreateState) := by
      simp only [createStep]
      rw [hp]
      rfl
    have hloop : createLoop initCreateState ("server" :: "port" :: s :: rest)
        = createLoop (⟨false, "127.0.0.1", true, toPortNumber v, true, Mode.Server⟩ : CreateState)
            (s :: rest) := by
      rw [show createLoop initCreateState ("server" :: "port" :: s :: rest)
            = createLoop (createStep (createStep initCreateState "server" "port") "port" s)
                (s :: rest) from rfl,
          hst1, hst2]
    have hm := createLoop_mode_found (s :: rest)
      (⟨false, "127.0.0.1", true, toPortNumber v, true, Mode.Server⟩ : CreateState) rfl
    have hpp := createLoop_port_found (s :: rest)
      (⟨false, "127.0.0.1", true, toPortNumber v, true, Mode.Server⟩ : CreateState) rfl
    have hfound : (createLoop initCreateState ("server" :: "port" :: s :: rest)).l_ModeFound = true := by
      rw [hloop]; exact hm.1
    have hCreate : ApplicationConfig.Create ("server" :: "port" :: s :: rest)
        = some { m_Mode := (createLoop initCreateState ("server" :: "port" :: s :: rest)).l_Mode,
                 m_Address := (createLoop initCreateState ("server" :: "port" :: s :: rest)).l_Address,
                 m_Port := (createLoop initCreateState ("server" :: "port" :: s :: rest)).l_Port } := by
      simp only [ApplicationConfig.Create, List.isEmpty_cons, Bool.false_eq_true, if_false,
        hfound, if_true]
    refine ⟨_, hCreate, ?_, ?_⟩
    · show (createLoop initCreateState ("server" :: "port" :: s :: rest)).l_Port = toPortNumber v
      rw [hloop]; exact hpp.2
    · show (createLoop initCreateState ("server" :: "port" :: s :: rest)).l_Mode = _
      rw [hloop,
          show (if ("server" : String) = "client" then Mode.Client else Mode.Server)
            = Mode.Server by decide]
      exact hm.2
  · have hst1 : createStep initCreateState "client" "port"
        = (⟨false, "127.0.0.1", false, 7500, true, Mode.Client⟩ : CreateState) := by
      decide
    have hst2 : createStep (⟨false, "127.0.0.1", false, 7500, true, Mode.Client⟩ : CreateState) "port" s
        = (⟨false, "127.0.0.1", true, toPortNumber v, true, Mode.Client⟩ : CreateState) := by
      simp only [createStep]
      rw [hp]
      rfl
    have hloop : createLoop initCreateState ("client" :: "port" :: s :: rest)
        = createLoop (⟨false, "127.0.0.1", true, toPortNumber v, true, Mode.Client⟩ : CreateState)
            (s :: rest) := by
      rw [show createLoop initCreateState ("client" :: "port" :: s :: rest)
            = createLoop (createStep (createStep initCreateState "client" "port") "port" s)
                (s :: rest) from rfl,
          hst1, hst2]
    have hm := createLoop_mode_found (s :: rest)
      (⟨false, "127.0.0.1", true, toPortNumber v, true, Mode.Client⟩ : CreateState) rfl
    have hpp := createLoop_port_found (s :: rest)
      (⟨false, "127.0.0.1", true, toPortNumber v, true, Mode.Client⟩ : CreateState) rfl
    have hfound : (createLoop initCreateState ("client" :: "port" :: s :: rest)).l_ModeFound = true := by
      rw [hloop]; exact hm.1
    have hCreate : ApplicationConfig.Create ("client" :: "port" :: s :: rest)
        = some { m_Mode := (createLoop initCreateState ("client" :: "port" :: s :: rest)).l_Mode,
                 m_Address := (createLoop initCreateState ("client" :: "port" :: s :: rest)).l_Address,
                 m_Port := (createLoop initCreateState ("client" :: "port" :: s :: rest)).l_Port } := by
      simp only [ApplicationConfig.Create, List.isEmpty_cons, Bool.false_eq_true, if_false,
        hfound, if_true]
    refine ⟨_, hCreate, ?_, ?_⟩
    · show (createLoop initCreateState ("client" :: "port" :: s :: rest)).l_Port = toPortNumber v
      rw [hloop]; exact hpp.2
    · show (createLoop initCreateState ("client" :: "port" :: s :: rest)).l_Mode = _
      rw [hloop,
          show (if ("client" : String) = "client" then Mode.Client else Mode.Server)
            = Mode.Client by decide]
      exact hm.2

/-- C10 witness: the list ["server", "port", "70000"] is accepted with
port 70000 mod 65536 = 4464, and ["client", "port", "-1"] with port
65535. -/
theorem spec_C10_witness :
    (∃ cfg, ApplicationConfig.Create ["server", "port", "70000"] = some cfg ∧
      cfg.m_Port = toPortNumber 70000 ∧
      cfg.m_Mode = (if ("server" : String) = "client" then Mode.Client else Mode.Server)) ∧
    (∃ cfg, ApplicationConfig.Create ["client", "port", "-1"] = some cfg ∧
      cfg.m_Port = toPortNumber (-1) ∧
      cfg.m_Mode = (if ("client" : String) = "client" then Mode.Client else Mode.Server)) ∧
    toPortNumber 70000 = 4464 ∧ toPortNumber (-1) = 65535 :=
  ⟨spec_C10 "server" "70000" [] 70000 (Or.inl rfl) (by decide) (Or.inr (by decide)),
   spec_C10 "client" "-1" [] (-1) (Or.inr rfl) (by decide) (Or.inl (by decide)),
   by decide, by decide⟩
